import Mathlib

/-!
Shallow embedding of the per-container compaction engine of thanos-rs
(src/main.rs, function optimise_region_files, plus the filename dispatch
logic around it).  A file is modelled as its length together with a
random-access byte function (the source accesses the file through seeks and
exact reads, so this is the interface it actually uses); bytes are Nat values
below 256.  The two external collaborators (the flate2 decoders and the
simdnbt InhabitedTime lookup) are oracle parameters collected in a structure.
Panicking paths (unwrap / expect) are modelled as Except.error.
-/

set_option maxRecDepth 1000000

namespace Thanos

/-- A file: its length and the byte stored at each position below the length. -/
structure ByteFile where
  size : Nat
  get : Nat → Nat

/-- Big-endian 32-bit value from four bytes (i32::from_be_bytes, unsigned view). -/
def be32 (b0 b1 b2 b3 : Nat) : Nat :=
  ((b0 * 256 + b1) * 256 + b2) * 256 + b3

/-- Reinterpret an unsigned 32-bit value as the signed i32 it encodes. -/
def toSigned32 (n : Nat) : Int :=
  if n < 2147483648 then (n : Int) else (n : Int) - 4294967296

/-- Big-endian byte encoding of a 32-bit value (i32::to_be_bytes). -/
def be32Bytes (n : Nat) : List Nat :=
  [n / 16777216 % 256, n / 65536 % 256, n / 256 % 256, n % 256]

/-- Big-endian byte encoding of a 64-bit value (u64::to_be_bytes): eight bytes. -/
def be64Bytes (n : Nat) : List Nat :=
  [n / 72057594037927936 % 256, n / 281474976710656 % 256,
   n / 1099511627776 % 256, n / 4294967296 % 256,
   n / 16777216 % 256, n / 65536 % 256, n / 256 % 256, n % 256]

/-- read_exact of n bytes at an absolute position: the requested span must lie
inside the file, otherwise the read fails (none models the Err that the
source unwraps). -/
def readBytes (f : ByteFile) (pos n : Nat) : Option (List Nat) :=
  if pos + n ≤ f.size then some ((List.range n).map fun k => f.get (pos + k)) else none

/-- External collaborators of the engine: the two flate2 decoders selected by the
compression tag, and the simdnbt lookup of the InhabitedTime long field.  A
value of none models the corresponding Err or missing-field result. -/
structure Collab where
  gzDecode : List Nat → Option (List Nat)
  zlibDecode : List Nat → Option (List Nat)
  nbtInhabitedTime : List Nat → Option Int

/-- One surviving chunk as pushed into chunk_data at src/main.rs:189:
the original packed location value (an i32), the compression tag byte, and the
compressed body bytes. -/
structure ChunkEntry where
  loc : Int
  tag : Nat
  data : List Nat
  deriving DecidableEq

/-- Dispatch on the compression tag as in src/main.rs:167-183. -/
def decompress (c : Collab) (tag : Nat) (data : List Nat) : Option (List Nat) :=
  if tag = 1 then c.gzDecode data
  else if tag = 2 then c.zlibDecode data
  else none

/-- Result of reading one slot of the location table, before the threshold test:
the slot can be empty (both fields zero), a read can panic (unwrap on a failed
read_exact, usize underflow, or a failed InhabitedTime lookup), the sub-record
can be undecodable (unknown compression tag or decoder error, the continue
branches at src/main.rs:161-181), or fully readable together with its age. -/
inductive SlotRead where
  | empty
  | panic (msg : String)
  | undecodable (e : ChunkEntry)
  | readable (e : ChunkEntry) (age : Int)
  deriving DecidableEq

/-- The 4096-byte location-table buffer read at src/main.rs:122-124: the first
4096 bytes of the file (the file has at least 8192 bytes when this is read;
indices beyond the buffer do not occur). -/
def locBuffer (f : ByteFile) : ByteFile :=
  ⟨4096, fun i => if i < 4096 then f.get i else 0⟩

/-- The packed location entry of a slot: four big-endian bytes of the buffer
at index * 4 (src/main.rs:132). -/
def tableLoc (table : ByteFile) (index : Nat) : Nat :=
  be32 (table.get (index * 4)) (table.get (index * 4 + 1))
    (table.get (index * 4 + 2)) (table.get (index * 4 + 3))

/-- Read and decode one slot, mirroring the body of the slot loop at
src/main.rs:131-186: decode the packed location, skip empty slots, seek to
sector_offset * 4096, read the 4-byte size, the tag byte and the body,
dispatch the decoder, and look up the age field.  Casts follow the source:
loc is signed (i32), the shift by 8 is arithmetic, the seek position is the
u64 cast of sector_offset times 4096, and the body length is the u64 cast of
size minus one (with the underflow at size zero a panic, as in the source). -/
def readSlot (c : Collab) (f table : ByteFile) (index : Nat) : SlotRead :=
  let lraw := tableLoc table index
  let loc : Int := toSigned32 lraw
  let numSectors : Int := loc % 256
  let sectorOffset : Int := Int.fdiv loc 256
  if sectorOffset = 0 ∧ numSectors = 0 then .empty
  else
    let seekPos : Nat := (((sectorOffset % 18446744073709551616) * 4096) %
      18446744073709551616).toNat
    match readBytes f seekPos 4 with
    | none => .panic "failed to read chunk size"
    | some cs =>
      let chunkSize : Int :=
        toSigned32 (be32 (cs.getD 0 0) (cs.getD 1 0) (cs.getD 2 0) (cs.getD 3 0))
      match readBytes f (seekPos + 4) 1 with
      | none => .panic "failed to read compression type"
      | some ct =>
        let tag := ct.getD 0 0
        let csU : Nat := (chunkSize % 18446744073709551616).toNat
        if csU = 0 then .panic "chunk size underflow"
        else
          match readBytes f (seekPos + 5) (csU - 1) with
          | none => .panic "failed to read chunk data"
          | some data =>
            let e : ChunkEntry := ⟨loc, tag, data⟩
            if tag ≠ 1 ∧ tag ≠ 2 then .undecodable e
            else
              match decompress c tag data with
              | none => .undecodable e
              | some payload =>
                match c.nbtInhabitedTime payload with
                | none => .panic "failed to read InhabitedTime"
                | some age => .readable e age

/-- One slot of the scan: empty and undecodable slots contribute nothing
(continue), a panic aborts, and a readable slot survives exactly when its age
is strictly above the threshold (src/main.rs:188-190). -/
def scanSlot (c : Collab) (thr : Int) (f table : ByteFile) (index : Nat) :
    Except String (Option ChunkEntry) :=
  match readSlot c f table index with
  | .empty => .ok none
  | .panic m => .error m
  | .undecodable _ => .ok none
  | .readable e age => .ok (if age > thr then some e else none)

/-- The slot visit order of the double loop at src/main.rs:129-131:
x outer, z inner, index = (x and 31) + (z and 31) * 32. -/
def slotOrder : List Nat :=
  (List.range 32).flatMap (fun x => (List.range 32).map (fun z => (x &&& 31) + (z &&& 31) * 32))

/-- Scan a list of slots in order, accumulating surviving entries in visit
order; the first panicking slot aborts the whole container (the unwraps
unwind out of the loop). -/
def scanSlotsOn (c : Collab) (thr : Int) (f table : ByteFile) :
    List Nat → List ChunkEntry → Except String (List ChunkEntry)
  | [], acc => .ok acc
  | i :: rest, acc =>
    match scanSlot c thr f table i with
    | .error m => .error m
    | .ok none => scanSlotsOn c thr f table rest acc
    | .ok (some e) => scanSlotsOn c thr f table rest (acc ++ [e])

/-- One write_all call on the output file: an absolute position (set by the
preceding seek or by the running cursor) and the bytes written there. -/
structure WOp where
  pos : Nat
  bytes : List Nat
  deriving DecidableEq

/-- Sector count of a body: (len + SECTOR_SIZE - 1) / SECTOR_SIZE
(src/main.rs:204). -/
def numSectors (len : Nat) : Nat := (len + 4096 - 1) / 4096

/-- The write sequence of the repack loop at src/main.rs:203-215, starting from
a given running offset.  Per entry, in order: a seek to (loc and 0xFF) * 4
followed by write_all of new_loc.to_be_bytes() - new_loc is a u64, so this
write is EIGHT bytes; then a seek to the running offset and three writes:
the 4-byte big-endian (body length + 1) as i32, the tag byte, and the body.
Returns the write list and the final running offset passed to set_len. -/
def repackFrom (offset : Nat) : List ChunkEntry → List WOp × Nat
  | [] => ([], offset)
  | e :: rest =>
    let ns := numSectors e.data.length
    let newLoc := (Nat.lor ((offset / 4096) <<< 8) ns) % 18446744073709551616
    let ws : List WOp :=
      [⟨((e.loc % 256).toNat) * 4, be64Bytes newLoc⟩,
       ⟨offset, be32Bytes ((e.data.length + 1) % 4294967296)⟩,
       ⟨offset + 4, [e.tag]⟩,
       ⟨offset + 5, e.data⟩]
    let r := repackFrom (offset + ns * 4096) rest
    (ws ++ r.1, r.2)

/-- Full repack: the running offset starts at 2 * SECTOR_SIZE = 8192
(src/main.rs:202). -/
def repackWrites (entries : List ChunkEntry) : List WOp × Nat :=
  repackFrom 8192 entries

/-- The running offsets at which the successive surviving entries are written
during repack: the first at the starting offset, each next advanced by the
sector footprint of the previous entry. -/
def entryOffsets : List ChunkEntry → Nat → List Nat
  | [], _ => []
  | e :: es, off => off :: entryOffsets es (off + numSectors e.data.length * 4096)

/-- The byte a freshly created file holds at position i after a sequence of
writes: the last write covering i wins; positions never written read as zero
(File::create truncates to length zero, and extension by seek or set_len is
zero-filled). -/
def writeByteAt (ws : List WOp) (i : Nat) : Nat :=
  ws.foldl (fun cur w =>
    if w.pos ≤ i ∧ i < w.pos + w.bytes.length then w.bytes.getD (i - w.pos) cur else cur) 0

/-- The final output file: set_len(offset) fixes the length to the final
running offset exactly, truncating any bytes written beyond it
(src/main.rs:217). -/
def materialize (ws : List WOp) (len : Nat) : ByteFile :=
  ⟨len, fun i => if i < len then writeByteAt ws i else 0⟩

/-- Terminal per-container outcomes of the worker closure at
src/main.rs:84-218.  notRegionFile: the filename filter returned early.
emptyRemoved: length-0 input and equal input and output directories, the
input file is deleted (remove_file, src/main.rs:108).  emptySkipped:
length-0 input, distinct output directory, nothing written or deleted.
headerMissing: length strictly between 0 and 8192, logged and left alone.
fullyPruned: no chunk survived the threshold, the closure returns without
creating, writing or deleting anything (src/main.rs:194-198).
written: the rewritten container. -/
inductive Outcome where
  | notRegionFile
  | emptyRemoved
  | emptySkipped
  | headerMissing
  | fullyPruned
  | written (f : ByteFile)

/-- Rust str::ends_with over character lists (filenames are handled as their
character sequences). -/
def endsWithStr (s p : List Char) : Bool :=
  if s.length < p.length then false else s.drop (s.length - p.length) == p

/-- Rust str::split on a single separator character: every occurrence
separates, empty pieces are kept. -/
def splitOnChar (sep : Char) : List Char → List (List Char)
  | [] => [[]]
  | c :: rest =>
    match splitOnChar sep rest with
    | [] => [[]]
    | h :: t => if c = sep then [] :: h :: t else (c :: h) :: t

/-- Value of an ASCII digit character, none otherwise. -/
def digitVal (c : Char) : Option Nat :=
  if '0' ≤ c ∧ c ≤ '9' then some (c.toNat - 48) else none

/-- Parse a nonempty all-digit sequence as a natural number. -/
def parseDigits (l : List Char) : Option Nat :=
  l.foldl
    (fun acc c =>
      match acc, digitVal c with
      | some a, some d => some (a * 10 + d)
      | _, _ => none)
    (if l.isEmpty then none else some 0)

/-- Parse of a filename part as a signed 32-bit integer (str::parse with
target type i32, src/main.rs:98-99): optional sign, digits, i32 range. -/
def parseI32 (s : List Char) : Option Int :=
  match s with
  | '-' :: rest =>
    (parseDigits rest).bind fun n =>
      if (n : Int) ≤ 2147483648 then some (-(n : Int)) else none
  | '+' :: rest =>
    (parseDigits rest).bind fun n =>
      if n < 2147483648 then some (n : Int) else none
  | _ =>
    (parseDigits s).bind fun n =>
      if n < 2147483648 then some (n : Int) else none

/-- The whole per-file worker closure (src/main.rs:84-218) as a function of the
collaborators, the input-directory-equals-output-directory flag, the
threshold, the filename and the file bytes.  Except.error models a panic of
the closure (an unwrap or expect firing). -/
def processFile (c : Collab) (sameDir : Bool) (thr : Int) (name : String)
    (f : ByteFile) : Except String Outcome :=
  if ¬ endsWithStr name.data ".mca".data then .ok .notRegionFile
  else if (splitOnChar '.' name.data).length ≠ 4 then .ok .notRegionFile
  else
    match parseI32 ((splitOnChar '.' name.data).getD 1 []),
        parseI32 ((splitOnChar '.' name.data).getD 2 []) with
    | none, _ => .error "invalid region x in filename"
    | some _, none => .error "invalid region z in filename"
    | some _, some _ =>
      if f.size = 0 then .ok (if sameDir then .emptyRemoved else .emptySkipped)
      else if f.size < 8192 then .ok .headerMissing
      else
        match scanSlotsOn c thr f (locBuffer f) slotOrder [] with
        | .error m => .error m
        | .ok [] => .ok .fullyPruned
        | .ok entries =>
          let r := repackWrites entries
          .ok (.written (materialize r.1 r.2))

/-- The directory dispatch (src/main.rs:84, par_iter over the directory
entries): each worker closure sees only its own file; its result is a
function of that file and the shared configuration alone. -/
def runDir (c : Collab) (sameDir : Bool) (thr : Int)
    (files : List (String × ByteFile)) : List (String × Except String Outcome) :=
  files.map (fun f => (f.1, processFile c sameDir thr f.1 f.2))

/-- Age of a surviving entry as recovered from its tag and compressed body
through the collaborators, used to state round-trip properties. -/
def entryAge (c : Collab) (e : ChunkEntry) : Option Int :=
  (decompress c e.tag e.data).bind c.nbtInhabitedTime

/-- The ages of the surviving entries of a container file, in scan order. -/
def survivedAges (c : Collab) (thr : Int) (f : ByteFile) :
    Except String (List (Option Int)) :=
  (scanSlotsOn c thr f (locBuffer f) slotOrder []).map (List.map (entryAge c))

/-- Extract the written file of an outcome; the empty file on any other
outcome. -/
def getWritten : Except String Outcome → ByteFile
  | .ok (.written o) => o
  | _ => ⟨0, fun _ => 0⟩

/-- Whether the outcome is a rewritten container. -/
def isWritten : Except String Outcome → Bool
  | .ok (.written _) => true
  | _ => false

/-- Byte-for-byte equality of two files: same length, same byte at every
position below it. -/
def bytesEq (a b : ByteFile) : Bool :=
  a.size == b.size && (List.range a.size).all (fun i => a.get i == b.get i)

/-! Concrete fixtures: small synthetic containers used to evaluate the engine
at specific inputs, together with a concrete instantiation of the
collaborators.  Any such oracle is realizable by the real decoders: for every
payload there are gzip and zlib streams decoding to it, so an oracle mapping
the specific bodies used here to the specific payloads used here describes an
actual container. -/

/-- Build a file of a given size from a list of writes into an all-zero file. -/
def mkFile (size : Nat) (ws : List WOp) : ByteFile := materialize ws size

/-- A packed location-table entry: sector offset in the high 24 bits, sector
count in the low byte. -/
def locEntry (sOff cnt : Nat) : List Nat := be32Bytes (sOff * 256 + cnt)

/-- One stored sub-record: 4-byte big-endian size (body length + 1), the tag
byte, the body (the rest of its sector stays zero). -/
def chunkBytes (tag : Nat) (data : List Nat) : List Nat :=
  be32Bytes (data.length + 1) ++ tag :: data

/-- Concrete collaborator instance: both decoders are realized on the bodies
used in the fixtures as the identity, and the age field of a payload is its
first byte (a payload without bytes has no readable age field). -/
def testCollab : Collab :=
  ⟨fun d => some d, fun d => some d,
   fun p => match p with | [] => none | b :: _ => some (b : Int)⟩

/-- Collaborator instance in which every lookup fails; used where the file
never reaches the collaborators. -/
def noCollab : Collab := ⟨fun _ => none, fun _ => none, fun _ => none⟩

/-- Container with one occupied slot, slot index 0: location entry sector 2,
count 1, body [9] (age 9) stored with tag 2. -/
def c1File : ByteFile :=
  mkFile 12288 [⟨0, locEntry 2 1⟩, ⟨8192, chunkBytes 2 [9]⟩]

/-- Container with two occupied slots 0 and 1 whose location entries share the
low byte (count 1): sector 2 body [9] and sector 3 body [8, 7], both tag 2. -/
def c2File : ByteFile :=
  mkFile 16384 [⟨0, locEntry 2 1 ++ locEntry 3 1⟩,
    ⟨8192, chunkBytes 2 [9]⟩, ⟨12288, chunkBytes 2 [8, 7]⟩]

/-- Container with one occupied slot whose body decompresses to an empty
payload, so the age lookup fails. -/
def c3File : ByteFile :=
  mkFile 12288 [⟨0, locEntry 2 1⟩, ⟨8192, chunkBytes 2 []⟩]

/-- Container with one occupied slot of age 0: fully pruned at threshold 0. -/
def c5File : ByteFile :=
  mkFile 12288 [⟨0, locEntry 2 1⟩, ⟨8192, chunkBytes 2 [0]⟩]

/-- Container with slot 0 carrying compression tag 5 (unknown) and slot 1 a
valid tag-2 sub-record of age 9. -/
def c7File : ByteFile :=
  mkFile 16384 [⟨0, locEntry 2 1 ++ locEntry 3 1⟩,
    ⟨8192, chunkBytes 5 [1, 2, 3]⟩, ⟨12288, chunkBytes 2 [9]⟩]

/-- Container whose single location entry claims 2 sectors while the body
occupies 1: sector 2, count 2, body [9], tag 2. -/
def c9File : ByteFile :=
  mkFile 12288 [⟨0, locEntry 2 2⟩, ⟨8192, chunkBytes 2 [9]⟩]

/-- The surviving entries of the c1File container: one entry, original
location 0x201 (sector 2, count 1), tag 2, body [9]. -/
def c1Entries : List ChunkEntry := [⟨513, 2, [9]⟩]

/-- The rewritten output of the c1File container. -/
def c1Out : ByteFile := materialize (repackWrites c1Entries).1 (repackWrites c1Entries).2

/-- The surviving entries of the c2File container, in scan order. -/
def c2Entries : List ChunkEntry := [⟨513, 2, [9]⟩, ⟨769, 2, [8, 7]⟩]

/-- The rewritten output of the c2File container. -/
def c2Out : ByteFile := materialize (repackWrites c2Entries).1 (repackWrites c2Entries).2

/-- The surviving entries of the c9File container: original location 0x202
(sector 2, count 2), tag 2, body [9]. -/
def c9Entries1 : List ChunkEntry := [⟨514, 2, [9]⟩]

/-- The output of the first compaction of the c9File container. -/
def c9Out1 : ByteFile := materialize (repackWrites c9Entries1).1 (repackWrites c9Entries1).2

/-- The surviving entries of the first output when compacted again: the same
chunk, now behind the relocated location entry 0x201. -/
def c9Entries2 : List ChunkEntry := [⟨513, 2, [9]⟩]

/-- The output of the second, in-place compaction. -/
def c9Out2 : ByteFile := materialize (repackWrites c9Entries2).1 (repackWrites c9Entries2).2

/-- Decidable equality of Except values with decidable components, used to
evaluate the engine's results on concrete containers. -/
instance (priority := low) {α β : Type} [DecidableEq α] [DecidableEq β] :
    DecidableEq (Except α β) := fun a b =>
  match a, b with
  | .ok x, .ok y =>
    if h : x = y then isTrue (by rw [h]) else isFalse (by intro hh; cases hh; exact h rfl)
  | .error x, .error y =>
    if h : x = y then isTrue (by rw [h]) else isFalse (by intro hh; cases hh; exact h rfl)
  | .ok _, .error _ => isFalse (by intro hh; cases hh)
  | .error _, .ok _ => isFalse (by intro hh; cases hh)

/-! Helper lemmas. -/

/-- An undecodable slot contributes nothing to the scan (the continue branch). -/
theorem scanSlot_undecodable (c : Collab) (thr : Int) (f table : ByteFile)
    (j : Nat) (e : ChunkEntry) (h : readSlot c f table j = .undecodable e) :
    scanSlot c thr f table j = .ok none := by
  simp [scanSlot, h]

/-- The final repack offset stays a multiple of the sector size. -/
theorem repackFrom_snd_aligned (es : List ChunkEntry) :
    ∀ off : Nat, off % 4096 = 0 → (repackFrom off es).2 % 4096 = 0 := by
  induction es with
  | nil => intro off h; simpa [repackFrom] using h
  | cons e rest ih =>
    intro off h
    simp only [repackFrom]
    exact ih _ (by omega)

/-- Every repack offset is sector-aligned and lies beyond the two header
tables. -/
theorem entryOffsets_aligned (es : List ChunkEntry) :
    ∀ off : Nat, off % 4096 = 0 → 8192 ≤ off →
      ∀ o ∈ entryOffsets es off, o % 4096 = 0 ∧ 8192 ≤ o := by
  induction es with
  | nil => intro off _ _ o ho; simp [entryOffsets] at ho
  | cons e rest ih =>
    intro off h1 h2 o ho
    simp only [entryOffsets, List.mem_cons] at ho
    rcases ho with rfl | ho
    · exact ⟨h1, h2⟩
    · exact ih _ (by omega) (by omega) o ho

/-- The i-th surviving entry's 4-byte size header is written at the i-th
repack offset. -/
theorem repackFrom_size_write (es : List ChunkEntry) :
    ∀ (off : Nat) (i : Nat) (e : ChunkEntry), es.get? i = some e →
      ∃ o, (entryOffsets es off).get? i = some o ∧
        (⟨o, be32Bytes ((e.data.length + 1) % 4294967296)⟩ : WOp) ∈ (repackFrom off es).1 := by
  induction es with
  | nil => intro off i e h; simp at h
  | cons a rest ih =>
    intro off i e h
    cases i with
    | zero =>
      simp only [List.get?] at h
      cases h
      refine ⟨off, rfl, ?_⟩
      simp [repackFrom]
    | succ n =>
      simp only [List.get?] at h
      obtain ⟨o, ho, hm⟩ := ih (off + numSectors a.data.length * 4096) n e h
      refine ⟨o, ho, ?_⟩
      simp only [repackFrom, List.mem_append]
      exact Or.inr (by simpa using hm)

/-! Claim theorems. -/

/-- C6: inclusion is strict greater-than.  For a slot whose sub-record is
fully readable with age, the scan keeps its entry exactly when the age is
strictly greater than the threshold; in particular a slot whose age equals
the threshold is removed. -/
theorem c6_strict_threshold (c : Collab) (thr : Int) (f table : ByteFile)
    (i : Nat) (e : ChunkEntry) (age : Int)
    (h : readSlot c f table i = .readable e age) :
    (scanSlot c thr f table i = .ok (some e) ↔ age > thr) ∧
      (age = thr → scanSlot c thr f table i = .ok none) := by
  constructor
  · constructor
    · intro hs
      by_contra hgt
      simp [scanSlot, h, hgt] at hs
    · intro hgt
      simp [scanSlot, h, hgt]
  · intro heq
    have : ¬ age > thr := by omega
    simp [scanSlot, h, this]

/-- C6 witness: a container with one occupied slot of age 0 at threshold 0
keeps nothing from that slot. -/
theorem c6_strict_threshold_witness :
    readSlot testCollab c5File (locBuffer c5File) 0 = .readable ⟨513, 2, [0]⟩ 0 ∧
      scanSlot testCollab 0 c5File (locBuffer c5File) 0 = .ok none :=
  ⟨by decide,
   (c6_strict_threshold testCollab 0 c5File (locBuffer c5File) 0 ⟨513, 2, [0]⟩ 0
      (by decide)).2 rfl⟩

/-- C7: a slot whose sub-record is undecodable (unknown compression tag, or a
decoder failure) is skipped and the scan of the container is exactly the scan
with that slot removed from the visit list: the remaining slots are processed
unchanged and the container is never aborted by such a slot. -/
theorem c7_undecodable_skipped (c : Collab) (f table : ByteFile) (j : Nat)
    (e : ChunkEntry) (h : readSlot c f table j = .undecodable e) (thr : Int) :
    ∀ (l : List Nat) (acc : List ChunkEntry),
      scanSlotsOn c thr f table l acc =
        scanSlotsOn c thr f table (l.filter (fun i => i != j)) acc := by
  intro l
  induction l with
  | nil => intro acc; rfl
  | cons i rest ih =>
    intro acc
    by_cases hij : i = j
    · subst hij
      have hs := scanSlot_undecodable c thr f table i e h
      simp [scanSlotsOn, hs, List.filter, ih]
    · have hb : (i != j) = true := by simpa [bne] using hij
      simp only [List.filter, hb]
      cases hsc : scanSlot c thr f table i with
      | error m => simp [scanSlotsOn, hsc]
      | ok o =>
        cases o with
        | none => simp [scanSlotsOn, hsc, ih]
        | some e2 => simp [scanSlotsOn, hsc, ih]

/-- C7 witness: in a container whose slot 0 has compression tag 5 and whose
slot 1 is valid, the scan equals the scan without slot 0, and the surviving
entries are exactly the valid slot (age 9), which is then written out. -/
theorem c7_undecodable_skipped_witness :
    readSlot testCollab c7File (locBuffer c7File) 0 = .undecodable ⟨513, 5, [1, 2, 3]⟩ ∧
      scanSlotsOn testCollab 0 c7File (locBuffer c7File) slotOrder [] =
        scanSlotsOn testCollab 0 c7File (locBuffer c7File)
          (slotOrder.filter (fun i => i != 0)) [] ∧
      survivedAges testCollab 0 c7File = .ok [some 9] :=
  ⟨by decide,
   c7_undecodable_skipped testCollab c7File (locBuffer c7File) 0 ⟨513, 5, [1, 2, 3]⟩
     (by decide) 0 slotOrder [],
   by decide⟩

/-- C10: per-container processing is deterministic and independent of
dispatch order.  Each file's result in a directory run is the pure function
processFile of that file's name, bytes and the threshold alone, and a run
over any reordering of the same files yields the reordered same per-container
results. -/
theorem c10_deterministic (c : Collab) (sameDir : Bool) (thr : Int)
    (files1 files2 : List (String × ByteFile)) (h : files1.Perm files2) :
    (∀ n f, (n, f) ∈ files1 →
      (n, processFile c sameDir thr n f) ∈ runDir c sameDir thr files1) ∧
      (runDir c sameDir thr files1).Perm (runDir c sameDir thr files2) := by
  constructor
  · intro n f hm
    have := List.mem_map_of_mem
      (fun p : String × ByteFile => (p.1, processFile c sameDir thr p.1 p.2)) hm
    simpa [runDir] using this
  · exact h.map _

/-- C10 witness: two files dispatched in both orders give permuted identical
per-container results, containing each file's own processFile value. -/
theorem c10_deterministic_witness :
    (("foo.txt", processFile testCollab true 0 "foo.txt" ⟨0, fun _ => 0⟩) ∈
      runDir testCollab true 0
        [("foo.txt", ⟨0, fun _ => 0⟩), ("r.0.0.mca", c5File)]) ∧
      (runDir testCollab true 0
        [("foo.txt", ⟨0, fun _ => 0⟩), ("r.0.0.mca", c5File)]).Perm
        (runDir testCollab true 0
          [("r.0.0.mca", c5File), ("foo.txt", ⟨0, fun _ => 0⟩)]) :=
  ⟨(c10_deterministic testCollab true 0
      [("foo.txt", ⟨0, fun _ => 0⟩), ("r.0.0.mca", c5File)]
      [("r.0.0.mca", c5File), ("foo.txt", ⟨0, fun _ => 0⟩)]
      (List.Perm.swap _ _ _)).1 "foo.txt" ⟨0, fun _ => 0⟩ (List.mem_cons_self _ _),
   (c10_deterministic testCollab true 0
      [("foo.txt", ⟨0, fun _ => 0⟩), ("r.0.0.mca", c5File)]
      [("r.0.0.mca", c5File), ("foo.txt", ⟨0, fun _ => 0⟩)]
      (List.Perm.swap _ _ _)).2⟩

/-- Two files differing at a position inside the first are not byte-equal. -/
theorem bytesEq_false_of_ne (a b : ByteFile) (i : Nat) (hi : i < a.size)
    (h : ¬ a.get i = b.get i) : bytesEq a b = false := by
  unfold bytesEq
  have hall : (List.range a.size).all (fun j => a.get j == b.get j) = false := by
    rw [List.all_eq_false]
    exact ⟨i, List.mem_range.mpr hi, by simpa using h⟩
  rw [hall, Bool.and_false]

/-- C5 counterexample: in-place mode, a container all of whose chunks fall at
or below the threshold reaches the fullyPruned outcome - the closure returns
without any filesystem action - and not the emptyRemoved outcome that models
deletion; the claim that in-place mode deletes fully-pruned containers fails
here. -/
theorem c5_inplace_pruned_not_deleted :
    processFile testCollab true 0 "r.0.0.mca" c5File = .ok .fullyPruned ∧
      Outcome.fullyPruned ≠ Outcome.emptyRemoved := by
  refine ⟨by rfl, ?_⟩
  intro h
  cases h

/-- C5 (amended): for a filename accepted by the dispatch filter, a length-0
container is deleted in-place (emptyRemoved) and merely skipped into a
distinct output directory (emptySkipped), while a fully-pruned container is
never deleted in either mode: the closure returns fullyPruned, writing no
output and leaving the input untouched. -/
theorem c5_empty_and_pruned (c : Collab) (thr : Int) (name : String)
    (sameDir : Bool) (f : ByteFile)
    (h1 : endsWithStr name.data ".mca".data = true)
    (h2 : (splitOnChar '.' name.data).length = 4)
    (h3 : (parseI32 ((splitOnChar '.' name.data).getD 1 [])).isSome = true)
    (h4 : (parseI32 ((splitOnChar '.' name.data).getD 2 [])).isSome = true) :
    (f.size = 0 → processFile c sameDir thr name f =
      .ok (if sameDir then Outcome.emptyRemoved else Outcome.emptySkipped)) ∧
      (8192 ≤ f.size → scanSlotsOn c thr f (locBuffer f) slotOrder [] = .ok [] →
        processFile c sameDir thr name f = .ok .fullyPruned) := by
  obtain ⟨x, hx⟩ := Option.isSome_iff_exists.mp h3
  obtain ⟨y, hy⟩ := Option.isSome_iff_exists.mp h4
  constructor
  · intro hsz
    unfold processFile
    rw [if_neg (by simp [h1]), if_neg (by simp [h2]), hx, hy]
    rw [if_pos hsz]
  · intro hsz hscan
    have h0 : ¬ f.size = 0 := by omega
    have hlt : ¬ f.size < 8192 := by omega
    unfold processFile
    rw [if_neg (by simp [h1]), if_neg (by simp [h2]), hx, hy]
    rw [if_neg h0, if_neg hlt, hscan]

/-- C5 witness: the fully-pruned container of the fixtures, processed
in-place, reaches the fullyPruned outcome through the amended theorem. -/
theorem c5_empty_and_pruned_witness :
    (8192 ≤ c5File.size ∧
      scanSlotsOn testCollab 0 c5File (locBuffer c5File) slotOrder [] = .ok []) ∧
      processFile testCollab true 0 "r.0.0.mca" c5File = .ok .fullyPruned :=
  ⟨⟨by decide, by decide⟩,
   (c5_empty_and_pruned testCollab 0 "r.0.0.mca" true c5File (by decide) (by decide)
      (by decide) (by decide)).2 (by decide) (by decide)⟩

/-- C8: every rewritten container has a sector-aligned length, and its
surviving entries are written at offsets that are multiples of 4096 starting
no lower than 8192, the i-th entry's 4-byte size header landing at the i-th
running offset. -/
theorem c8_sector_alignment (c : Collab) (sameDir : Bool) (thr : Int)
    (name : String) (f : ByteFile) (out : ByteFile)
    (h : processFile c sameDir thr name f = .ok (.written out)) :
    out.size % 4096 = 0 ∧
      ∃ entries, scanSlotsOn c thr f (locBuffer f) slotOrder [] = .ok entries ∧
        entries ≠ [] ∧ out.size = (repackWrites entries).2 ∧
        (∀ o ∈ entryOffsets entries 8192, o % 4096 = 0 ∧ 8192 ≤ o) ∧
        (∀ i e, entries.get? i = some e →
          ∃ o, (entryOffsets entries 8192).get? i = some o ∧
            (⟨o, be32Bytes ((e.data.length + 1) % 4294967296)⟩ : WOp) ∈
              (repackWrites entries).1) := by
  unfold processFile at h
  split at h
  · exact absurd h (by simp)
  · split at h
    · exact absurd h (by simp)
    · split at h
      · exact absurd h (by simp)
      · exact absurd h (by simp)
      · split at h
        · cases sameDir <;> exact absurd h (by simp)
        · split at h
          · exact absurd h (by simp)
          · split at h
            · exact absurd h (by simp)
            · exact absurd h (by simp)
            · rename_i entries hne heq
              have hout : out = materialize (repackWrites entries).1
                  (repackWrites entries).2 := by
                simpa using h.symm
              subst hout
              exact ⟨repackFrom_snd_aligned entries 8192 (by decide), entries, heq,
                hne, rfl,
                entryOffsets_aligned entries 8192 (by decide) (by decide),
                fun i e hi => repackFrom_size_write entries 8192 i e hi⟩

/-- C8 witness: the single-chunk fixture container is rewritten and the
theorem applies to its output. -/
theorem c8_sector_alignment_witness :
    (getWritten (processFile testCollab true 0 "r.0.0.mca" c1File)).size % 4096 = 0 ∧
      ∃ entries,
        scanSlotsOn testCollab 0 c1File (locBuffer c1File) slotOrder [] = .ok entries ∧
        entries ≠ [] ∧
        (getWritten (processFile testCollab true 0 "r.0.0.mca" c1File)).size =
          (repackWrites entries).2 ∧
        (∀ o ∈ entryOffsets entries 8192, o % 4096 = 0 ∧ 8192 ≤ o) ∧
        (∀ i e, entries.get? i = some e →
          ∃ o, (entryOffsets entries 8192).get? i = some o ∧
            (⟨o, be32Bytes ((e.data.length + 1) % 4294967296)⟩ : WOp) ∈
              (repackWrites entries).1) :=
  c8_sector_alignment testCollab true 0 "r.0.0.mca" c1File
    (getWritten (processFile testCollab true 0 "r.0.0.mca" c1File)) rfl

/-- C1 refutation at a concrete input.  For the single surviving entry of the
c1File container (slot index 0, original packed location 0x201), the repack
emits its location write as EIGHT bytes at table offset (loc and 0xFF) * 4 =
4 - not four bytes at slot_index * 4 = 0: slot 0 of the output table reads
back as all zeros (empty) and the packed value [0, 0, 2, 1] lands at bytes
8..11, the entry of slot 2. -/
theorem c1_table_write_misplaced :
    processFile testCollab true 0 "r.0.0.mca" c1File = .ok (.written c1Out) ∧
      (repackWrites c1Entries).1.getD 0 ⟨0, []⟩ = ⟨4, [0, 0, 0, 0, 0, 0, 2, 1]⟩ ∧
      c1Out.get 0 = 0 ∧ c1Out.get 1 = 0 ∧ c1Out.get 2 = 0 ∧ c1Out.get 3 = 0 ∧
      c1Out.get 8 = 0 ∧ c1Out.get 9 = 0 ∧ c1Out.get 10 = 2 ∧ c1Out.get 11 = 1 :=
  ⟨rfl, by decide, by decide, by decide, by decide, by decide, by decide,
   by decide, by decide, by decide⟩

/-- C2 refutation at a concrete input.  The c2File container has two surviving
entries (ages 9 and 8) whose original location entries share the low byte, so
both location writes of the repack land at table offset 4 and the second
overwrites the first: reading the rewritten container back recovers only the
age-8 entry, not both. -/
theorem c2_roundtrip_fails :
    processFile testCollab true 0 "r.0.0.mca" c2File = .ok (.written c2Out) ∧
      survivedAges testCollab 0 c2File = .ok [some 9, some 8] ∧
      survivedAges testCollab 0 c2Out = .ok [some 8] :=
  ⟨rfl, by decide, by decide⟩

/-- C3 evaluation at the failing input.  A container whose single occupied
slot decompresses to a payload without a readable age field makes the worker
closure panic (the expect and unwrap at src/main.rs:185-186), modelled as an
error result - not a handled per-container abort. -/
theorem c3_missing_age_panics :
    processFile testCollab true 0 "r.0.0.mca" c3File =
      .error "failed to read InhabitedTime" := rfl

/-- C4 evaluation at the failing input.  A directory entry named r.a.b.mca
passes the extension and part-count checks, so the dispatcher reaches
parse::<i32>().unwrap() on the letter a and panics (modelled as an error)
instead of silently ignoring the file. -/
theorem c4_malformed_name_panics :
    processFile noCollab true 0 "r.a.b.mca" ⟨0, fun _ => 0⟩ =
      .error "invalid region x in filename" := rfl

/-- C9 refutation at a concrete input.  Compacting the c9File container (whose
location entry claims 2 sectors for a 1-sector body) writes its location
entry at table offset (0x202 and 0xFF) * 4 = 8; compacting the output again
in place writes it at (0x201 and 0xFF) * 4 = 4, so the second output differs
byte-for-byte from the first (bytes 10 and 14 disagree) although both files
have the same length. -/
theorem c9_not_idempotent :
    processFile testCollab true 0 "r.0.0.mca" c9File = .ok (.written c9Out1) ∧
      processFile testCollab true 0 "r.0.0.mca" c9Out1 = .ok (.written c9Out2) ∧
      bytesEq c9Out1 c9Out2 = false ∧ c9Out1.size = c9Out2.size ∧
      c9Out1.get 14 = 2 ∧ c9Out2.get 14 = 0 ∧
      c9Out1.get 10 = 0 ∧ c9Out2.get 10 = 2 :=
  ⟨rfl, rfl, bytesEq_false_of_ne c9Out1 c9Out2 10 (by decide) (by decide),
   rfl, by decide, by decide, by decide, by decide⟩

end Thanos
